import Mathlib

/-!
# Level measurer node and CPU cycle counter

A shallow embedding of `tracktion_LevelMeasurerProcessingNode.h` and of `rdtsc` from
`tracktion_CPU.h`, followed by the properties established about them.

Conventions of the embedding:

* stateful C++ is explicit state passing on `State`, which holds the node's members, the
  memory the audio views and MIDI references point into, and the log of calls made to
  collaborators (plugin, base class, latency processor, level measurer);
* an audio view or a MIDI reference is the address of the storage it denotes, so that two
  views alias exactly when their addresses are equal;
* `int` arithmetic is `Int` arithmetic followed by `wrapInt32`.
-/

namespace tracktion

/-! ## Machine integers -/

/-- Reduction of an integer to the range of a 32-bit two's-complement `int`. -/
def wrapInt32 (x : Int) : Int := (x + 2147483648) % 4294967296 - 2147483648

/-- The conversion `static_cast<size_t>` applied to a signed 64-bit value. -/
def toSizeT (x : Int) : Nat := (x % 18446744073709551616).toNat

/-! ## Data model -/

/-- Audio samples. The node only moves samples around, it never computes with them, so a
sample is an integer payload and silence is `0`. -/
abbrev Sample := Int

/-- A block of audio: one list of frames per channel. -/
abbrev AudioBlock := List (List Sample)

/-- Number of channels of a block (`getNumChannels`). -/
def AudioBlock.getNumChannels (b : AudioBlock) : Nat := b.length

/-- Number of frames of a block (`getNumFrames`): the length of its channels. -/
def AudioBlock.getNumFrames (b : AudioBlock) : Nat :=
  match b with
  | [] => 0
  | c :: _ => c.length

/-- Modelled from the spec: a timed event of the event stream; the time stamp is counted in
samples from the start of the block. The declaration of the message type is not in the sources. -/
structure MidiMessage where
  timeStamp : Int
  bytes : List Nat
deriving DecidableEq, Repr

/-- The event buffer of one block. -/
abbrev MidiMessageArray := List MidiMessage

/-- Modelled from the spec: `NodeProperties` is `{ nodeID: 64-bit hash, numberOfChannels:
unsigned, latencyNumSamples: signed integer }`; its declaration is not in the sources. -/
structure NodeProperties where
  nodeID : Nat
  numberOfChannels : Nat
  latencyNumSamples : Int
deriving DecidableEq, Repr

/-- An audio view together with a reference to a MIDI buffer, both given by address. -/
structure AudioAndMidiBuffer where
  audio : Nat
  midi : Nat
deriving DecidableEq, Repr

/-- The per-call context handed to `process`. -/
structure ProcessContext where
  numSamples : Nat
  buffers : AudioAndMidiBuffer
deriving DecidableEq, Repr

/-- The input node as seen through the `Node` interface. `propertiesOnCall k` is what its
`getNodeProperties` answers on the call number `k`, and `numPropertiesCalls` counts the calls
made so far, so an input whose answer changes between calls is representable. -/
structure Node where
  numOutputNodes : Int
  propertiesOnCall : Nat → NodeProperties
  numPropertiesCalls : Nat
  processed : Bool
  processedOutput : AudioAndMidiBuffer

/-- The call `input->getNodeProperties()`: the answer and the input afterwards. -/
def Node.getNodeProperties (n : Node) : NodeProperties × Node :=
  (n.propertiesOnCall n.numPropertiesCalls,
   { n with numPropertiesCalls := n.numPropertiesCalls + 1 })

/-- The call `input->hasProcessed()`. -/
def Node.hasProcessed (n : Node) : Bool := n.processed

/-- The call `input->getProcessedOutput()`. -/
def Node.getProcessedOutput (n : Node) : AudioAndMidiBuffer := n.processedOutput

/-- The members of the meter plugin that the node reads. -/
structure LevelMeterPlugin where
  itemID : Int
  showMidiActivity : Bool
deriving DecidableEq, Repr

/-- Whether the graph clears a node's buffers before processing it. -/
inductive ClearBuffers
  | no
  | yes
deriving DecidableEq, Repr

/-- Whether the graph allocates an audio buffer for a node. -/
inductive AllocateAudioBuffer
  | no
  | yes
deriving DecidableEq, Repr

/-- The argument of `setOptimisations`. -/
structure NodeOptimisations where
  clear : ClearBuffers
  allocate : AllocateAudioBuffer
deriving DecidableEq, Repr

/-- The prepared graph, reduced to what `prepareToPlay` reads from it: the answer of
`rootNode->getNodeProperties()`. -/
structure NodeGraph where
  rootNodeProperties : NodeProperties

/-- Modelled from the spec: `PlaybackInitialisationInfo` carries the sample rate, the block
size, the flag enabling the memory-sharing optimisation and the prepared graph; its declaration
is not in the sources. The sample rate is only passed on, never computed with. -/
structure PlaybackInitialisationInfo where
  sampleRate : Rat
  blockSize : Nat
  nodeGraph : NodeGraph
  enableNodeMemorySharing : Bool

/-! ## Latency processor -/

/-- Modelled from the spec: the latency processor is a fixed-delay stage for the audio and the
event stream (section 4.2); the class is not in the sources. `fifo` holds, per channel, the
samples written and not yet read, `midi` the events written and not yet read. -/
structure LatencyProcessor where
  latencyNumSamples : Int := 0
  sampleRate : Rat := 0
  blockSize : Nat := 0
  numChannels : Nat := 0
  fifo : List (List Sample) := []
  midi : MidiMessageArray := []

namespace LatencyProcessor

/-- Modelled from the spec: `setLatencyNumSamples(n)` configures the delay. -/
def setLatencyNumSamples (lp : LatencyProcessor) (n : Int) : LatencyProcessor :=
  { lp with latencyNumSamples := n }

/-- Modelled from the spec: `prepareToPlay` allocates the storage; before the configured number
of samples has been written a read yields silence, so every channel starts with that much
silence queued. -/
def prepareToPlay (lp : LatencyProcessor) (sampleRate : Rat) (blockSize numChannels : Nat) :
    LatencyProcessor :=
  { lp with
    sampleRate := sampleRate
    blockSize := blockSize
    numChannels := numChannels
    fifo := List.replicate numChannels (List.replicate lp.latencyNumSamples.toNat 0)
    midi := [] }

/-- Appends `src` channel by channel to the queues `fifo`. -/
def appendChannels : List (List Sample) → AudioBlock → List (List Sample)
  | [], _ => []
  | q :: qs, [] => q :: qs
  | q :: qs, c :: cs => (q ++ c) :: appendChannels qs cs

/-- Modelled from the spec: `writeAudio(block)` appends one block to the delay line. -/
def writeAudio (lp : LatencyProcessor) (src : AudioBlock) : LatencyProcessor :=
  { lp with fifo := appendChannels lp.fifo src }

/-- Modelled from the spec: `writeMIDI(events)` appends the events of one block, each delayed by
the configured number of samples. -/
def writeMIDI (lp : LatencyProcessor) (src : MidiMessageArray) : LatencyProcessor :=
  { lp with
    midi := lp.midi ++ src.map (fun m => { m with timeStamp := m.timeStamp + lp.latencyNumSamples }) }

/-- The first `n` samples of a queue, completed with silence. -/
def takeFrames (n : Nat) (q : List Sample) : List Sample :=
  q.take n ++ List.replicate (n - q.length) 0

/-- Modelled from the spec: `readAudioOverwriting(dest)` pops as many frames as `dest` has, for
each of the `numChannels` channels of `dest`; the result is the new content of `dest` and the
processor afterwards. -/
def readAudioOverwriting (lp : LatencyProcessor) (numChannels numFrames : Nat) :
    AudioBlock × LatencyProcessor :=
  ((List.range numChannels).map (fun c => takeFrames numFrames (lp.fifo.getD c [])),
   { lp with fifo := lp.fifo.map (fun q => q.drop numFrames) })

/-- Modelled from the spec: `readMIDI(dest, numFrames)` moves the events falling inside the next
`numFrames` frames to `dest` and brings the remaining ones `numFrames` closer. -/
def readMIDI (lp : LatencyProcessor) (dest : MidiMessageArray) (numFrames : Int) :
    MidiMessageArray × LatencyProcessor :=
  (dest ++ lp.midi.filter (fun m => decide (m.timeStamp < numFrames)),
   { lp with
     midi := (lp.midi.filter (fun m => ! decide (m.timeStamp < numFrames))).map
       (fun m => { m with timeStamp := m.timeStamp - numFrames }) })

end LatencyProcessor

/-! ## Scratch buffer -/

/-- The owning buffer `choc::buffer::ChannelArrayBuffer<float>`: a size and the samples. -/
structure ChannelArrayBuffer where
  numChannels : Nat := 0
  numFrames : Nat := 0
  data : AudioBlock := []
deriving DecidableEq, Repr

/-- The call `resize ({ numChannels, numFrames })`. -/
def ChannelArrayBuffer.resize (_b : ChannelArrayBuffer) (numChannels numFrames : Nat) :
    ChannelArrayBuffer :=
  { numChannels := numChannels
    numFrames := numFrames
    data := List.replicate numChannels (List.replicate numFrames 0) }

/-! ## Calls to collaborators -/

/-- The calls the node makes to its collaborators, in the order they are made. -/
inductive Call
  | baseClassInitialise (startTime : Int) (sampleRate : Int) (blockSizeSamples : Int)
  | baseClassDeinitialise
  | setOptimisations (o : NodeOptimisations)
  | setBufferViewToUse (view : Nat)
  | swapWith (dest src : Nat)
  | setAudioOutput (view : Nat)
  | copyFrom (dest src : Nat)
  | copyIfNotAliased (dest src : Nat)
  | writeAudio (block : AudioBlock)
  | writeMIDI (events : MidiMessageArray)
  | readAudioOverwriting (numFrames : Nat)
  | readMIDI (numFrames : Int)
  | processBuffer (block : AudioBlock) (start numSamples : Nat)
  | setShowMidi (show_ : Bool)
  | processMidi (events : MidiMessageArray)
deriving DecidableEq, Repr

/-! ## The node -/

/-- The data members of `LevelMeasurerProcessingNode`, with their in-class initialisers. -/
structure LevelMeasurerProcessingNode where
  input : Node
  meterPlugin : LevelMeterPlugin
  isInitialised : Bool := false
  canUseSourceBuffers : Bool := false
  latencyProcessor : Option LatencyProcessor := none
  tempAudioBuffer : ChannelArrayBuffer := {}
  tempMidiBuffer : MidiMessageArray := []

/-- The node together with the memory its views point into and the log of calls made. -/
structure State where
  self : LevelMeasurerProcessingNode
  audio : Nat → AudioBlock
  midi : Nat → MidiMessageArray
  calls : List Call

namespace LevelMeasurerProcessingNode

/-- The constructor: stores the input and the plugin, every other member is default. -/
def new (inputNode : Node) (levelMeterPlugin : LevelMeterPlugin) : LevelMeasurerProcessingNode :=
  { input := inputNode, meterPlugin := levelMeterPlugin }

/-- The state right after construction, in any surrounding memory and call history. -/
def fresh (inputNode : Node) (levelMeterPlugin : LevelMeterPlugin) (audio : Nat → AudioBlock)
    (midi : Nat → MidiMessageArray) (calls : List Call) : State :=
  { self := new inputNode levelMeterPlugin, audio := audio, midi := midi, calls := calls }

/-- Appends a call to the log. -/
def record (c : Call) (s : State) : State := { s with calls := s.calls ++ [c] }

/-- The integer constant that identifies the node type in the hash. -/
def typeHash : Int := 3731138684616245860

/-- The method `getNodeProperties`. The function `hash_combine` is defined outside the sources
and is a parameter: `hash_combine seed v` is the value left in `seed`. -/
def getNodeProperties (hash_combine : Nat → Nat → Nat) (s : State) : NodeProperties × State :=
  let r := s.self.input.getNodeProperties
  let props := r.1
  let s1 : State := { s with self := { s.self with input := r.2 } }
  if props.nodeID != 0 then
    let id1 := hash_combine props.nodeID (toSizeT s.self.meterPlugin.itemID)
    let id2 := hash_combine id1 (toSizeT typeHash)
    ({ props with nodeID := id2 }, s1)
  else
    (props, s1)

/-- The method `getDirectInputNodes`: the single input. -/
def getDirectInputNodes (s : State) : List Node := [s.self.input]

/-- The method `isReadyToProcess`. -/
def isReadyToProcess (s : State) : Bool := s.self.input.hasProcessed

/-- The private method `initialisePlugin`. -/
def initialisePlugin (s : State) : State :=
  let s1 := record (Call.baseClassInitialise 0 0 0) s
  { s1 with self := { s1.self with isInitialised := true } }

/-- The base-class method `setOptimisations`, which the node only calls. -/
def setOptimisations (o : NodeOptimisations) (s : State) : State :=
  record (Call.setOptimisations o) s

/-- The method `prepareToPlay`. The two property queries reach the input one after the other,
first directly and then through the node's own `getNodeProperties`. The latencies are `int`
and so is their difference. The casts to `ChannelCount` and `FrameCount` convert between
count types and keep the value. -/
def prepareToPlay (hash_combine : Nat → Nat → Nat) (info : PlaybackInitialisationInfo)
    (s : State) : State :=
  let s1 := initialisePlugin s
  let r := s1.self.input.getNodeProperties
  let inputProps := r.1
  let s2 : State := { s1 with self := { s1.self with input := r.2 } }
  let q := getNodeProperties hash_combine s2
  let nodeProps := q.1
  let s3 := q.2
  let s4 : State :=
    if info.enableNodeMemorySharing && s3.self.input.numOutputNodes == 1 then
      let inputNumChannels := inputProps.numberOfChannels
      let desiredNumChannels := nodeProps.numberOfChannels
      if inputNumChannels >= desiredNumChannels then
        setOptimisations { clear := ClearBuffers.no, allocate := AllocateAudioBuffer.no }
          { s3 with self := { s3.self with canUseSourceBuffers := true } }
      else s3
    else s3
  let latencyAtRoot : Int := info.nodeGraph.rootNodeProperties.latencyNumSamples
  let latencyAtInput : Int := inputProps.latencyNumSamples
  let numSamplesLatencyToIntroduce : Int := wrapInt32 (latencyAtRoot - latencyAtInput)
  if numSamplesLatencyToIntroduce <= 0 then
    s4
  else
    let lp := ((({} : LatencyProcessor).setLatencyNumSamples numSamplesLatencyToIntroduce).prepareToPlay
      info.sampleRate info.blockSize nodeProps.numberOfChannels)
    { s4 with
      self := { s4.self with
        latencyProcessor := some lp
        tempAudioBuffer := s4.self.tempAudioBuffer.resize nodeProps.numberOfChannels info.blockSize } }

/-- The base-class method `setBufferViewToUse`, which the node only calls. -/
def setBufferViewToUse (view : Nat) (s : State) : State :=
  record (Call.setBufferViewToUse view) s

/-- The method `preProcess`; its two arguments are not used by the body. -/
def preProcess (_numFrames : Nat) (_referenceSampleRange : Int × Int) (s : State) : State :=
  if s.self.canUseSourceBuffers then
    setBufferViewToUse s.self.input.getProcessedOutput.audio s
  else s

/-- Modelled from the spec: the method `swapWith` of the event buffer, which is not in the
sources, exchanges the contents of two event buffers (section 4.5: the events are moved). -/
def swapWith (dest src : Nat) (s : State) : State :=
  let s1 := record (Call.swapWith dest src) s
  { s1 with midi := Function.update (Function.update s.midi dest (s.midi src)) src (s.midi dest) }

/-- Modelled from the spec: the method `copyFrom` of the event buffer, which is not in the
sources, makes the contents of `dest` those of `src` (section 4.5: the events are copied). -/
def copyFrom (dest src : Nat) (s : State) : State :=
  let s1 := record (Call.copyFrom dest src) s
  { s1 with midi := Function.update s.midi dest (s.midi src) }

/-- Modelled from the spec: the base-class method `setAudioOutput`, which is not in the
sources, makes the given view the node's audio output (section 4.4: the node takes the input's
output buffer instead of copying). The call is logged with the view. -/
def setAudioOutput (view : Nat) (s : State) : State :=
  record (Call.setAudioOutput view) s

/-- Modelled from the spec: the copy of a block into a destination view, which is not in the
sources: every channel of the destination receives the corresponding channel of the source. -/
def copy (dest src : AudioBlock) : AudioBlock := src.take dest.getNumChannels

/-- Modelled from the spec: the function `copyIfNotAliased`, which is not in the sources, copies
unless the two views denote the same storage (section 4.4). -/
def copyIfNotAliased (dest src : Nat) (s : State) : State :=
  let s1 := record (Call.copyIfNotAliased dest src) s
  if dest = src then s1
  else { s1 with audio := Function.update s.audio dest (copy (s.audio dest) (s.audio src)) }

/-- The condition of the `jassert` at the head of `process`: source and destination have the
same number of channels. -/
def processAssertion (pc : ProcessContext) (s : State) : Bool :=
  (s.audio s.self.input.getProcessedOutput.audio).getNumChannels
    == (s.audio pc.buffers.audio).getNumChannels

/-- The private method `processLevelMeasurer`; the calls on the measurer are logged with the
data they receive. -/
def processLevelMeasurer (block : AudioBlock) (midi : MidiMessageArray) (s : State) : State :=
  let buffer := block
  let s1 := record (Call.processBuffer buffer 0 buffer.getNumFrames) s
  let s2 := record (Call.setShowMidi s.self.meterPlugin.showMidiActivity) s1
  record (Call.processMidi midi) s2

/-- The frames `tempAudioBuffer.getStart (numFrames)` after they were overwritten by `block`. -/
def overwriteStart (b : ChannelArrayBuffer) (numFrames : Nat) (block : AudioBlock) :
    ChannelArrayBuffer :=
  { b with data := List.zipWith (fun r old => r ++ old.drop numFrames) block b.data }

/-- The method `process`. An audio view is read through `s.audio`, a MIDI reference through
`s.midi`, at the moment of the read. -/
def process (pc : ProcessContext) (s : State) : State :=
  let sourceBuffers := s.self.input.getProcessedOutput
  let s1 : State :=
    if s.self.input.numOutputNodes == 1 then
      setAudioOutput sourceBuffers.audio (swapWith pc.buffers.midi sourceBuffers.midi s)
    else
      copyIfNotAliased pc.buffers.audio sourceBuffers.audio
        (copyFrom pc.buffers.midi sourceBuffers.midi s)
  match s1.self.latencyProcessor with
  | none =>
    processLevelMeasurer (s1.audio sourceBuffers.audio) (s1.midi pc.buffers.midi) s1
  | some lp =>
    let numFrames := (s1.audio sourceBuffers.audio).getNumFrames
    let s2 := record (Call.writeAudio (s1.audio sourceBuffers.audio)) s1
    let lp1 := lp.writeAudio (s1.audio sourceBuffers.audio)
    let s3 := record (Call.writeMIDI (s2.midi sourceBuffers.midi)) s2
    let lp2 := lp1.writeMIDI (s2.midi sourceBuffers.midi)
    let tempMidiCleared : MidiMessageArray := []
    let ra := lp2.readAudioOverwriting s3.self.tempAudioBuffer.numChannels numFrames
    let tempBlock := ra.1
    let s4 := record (Call.readAudioOverwriting numFrames) s3
    let rm := ra.2.readMIDI tempMidiCleared (wrapInt32 numFrames)
    let s5 := record (Call.readMIDI (wrapInt32 numFrames)) s4
    let s6 : State :=
      { s5 with
        self := { s5.self with
          latencyProcessor := some rm.2
          tempAudioBuffer := overwriteStart s5.self.tempAudioBuffer numFrames tempBlock
          tempMidiBuffer := rm.1 } }
    processLevelMeasurer tempBlock rm.1 s6

/-- The destructor. What `meterPlugin.baseClassNeedsInitialising()` answers at that moment is
decided by the plugin and its other owners, and is a parameter. -/
def destructor (baseClassNeedsInitialising : Bool) (s : State) : State :=
  if s.self.isInitialised && ! baseClassNeedsInitialising then
    record Call.baseClassDeinitialise s
  else s

/-- What can happen to a node between construction and destruction: a call of one of its
public methods, or a step of the rest of the graph, which owns the memory and drives the
input node. -/
inductive LifecycleCall
  | getNodeProperties
  | getDirectInputNodes
  | isReadyToProcess
  | prepareToPlay (info : PlaybackInitialisationInfo)
  | preProcess (numFrames : Nat) (referenceSampleRange : Int × Int)
  | process (pc : ProcessContext)
  | graphStep (input : Node) (audio : Nat → AudioBlock) (midi : Nat → MidiMessageArray)

/-- Whether a lifecycle call is a call of `prepareToPlay`. -/
def LifecycleCall.isPrepareToPlay : LifecycleCall → Bool
  | LifecycleCall.prepareToPlay _ => true
  | _ => false

/-- The state after one lifecycle call. -/
def applyCall (hash_combine : Nat → Nat → Nat) (c : LifecycleCall) (s : State) : State :=
  match c with
  | LifecycleCall.getNodeProperties => (getNodeProperties hash_combine s).2
  | LifecycleCall.getDirectInputNodes => s
  | LifecycleCall.isReadyToProcess => s
  | LifecycleCall.prepareToPlay info => prepareToPlay hash_combine info s
  | LifecycleCall.preProcess n r => preProcess n r s
  | LifecycleCall.process pc => process pc s
  | LifecycleCall.graphStep input audio midi =>
    { s with self := { s.self with input := input }, audio := audio, midi := midi }

/-- The state after a sequence of lifecycle calls. -/
def runCalls (hash_combine : Nat → Nat → Nat) (cs : List LifecycleCall) (s : State) : State :=
  cs.foldl (fun st c => applyCall hash_combine c st) s

/-- The calls that `after` logged beyond those already in the log of `before`. -/
def newCalls (before after : State) : List Call := after.calls.drop before.calls.length

/-- The view passed to the last `setAudioOutput` of a list of calls, if there is one. -/
def lastAudioOutput : List Call → Option Nat
  | [] => none
  | Call.setAudioOutput v :: cs => (lastAudioOutput cs).orElse (fun _ => some v)
  | _ :: cs => lastAudioOutput cs

/-- Modelled from the spec: the audio the node presents as its output after `process pc` took
`before` to `after` is the view it handed to `setAudioOutput` during the call, and the view of
the context otherwise; the base class that holds the output view is not in the sources. -/
def outputAudio (pc : ProcessContext) (before after : State) : AudioBlock :=
  after.audio ((lastAudioOutput (newCalls before after)).getD pc.buffers.audio)

/-- The events the node presents as its output after `process pc`: those of the context. -/
def outputMidi (pc : ProcessContext) (after : State) : MidiMessageArray :=
  after.midi pc.buffers.midi

end LevelMeasurerProcessingNode

/-! ## The cycle counter

`rdtsc` reads the device description as a `juce::String` and parses a part of it with the C
function `atoi`. A string is the list of its characters; a character index is an `Int`, as
in the library. The namespace `juce` holds the methods of `juce::String` that are used. -/

end tracktion

namespace juce

/-- The method `length`. -/
def length (s : List Char) : Int := s.length

/-- The method `startsWith`: `s` begins with the characters of `other`. -/
def startsWith (s other : List Char) : Bool := other.isPrefixOf s

/-- The method `indexOf`: the index of the first occurrence of `other` in `s`, or `-1`. -/
def indexOf (s other : List Char) : Int :=
  if other.isPrefixOf s then 0
  else
    match s with
    | [] => -1
    | _ :: t =>
      let r := indexOf t other
      if r < 0 then -1 else r + 1

/-- The method `contains`. -/
def contains (s other : List Char) : Bool := decide (indexOf s other >= 0)

/-- The method `substring (start, end)`: the characters whose index `i` has
`start <= i < end`, indices outside the string being ignored. -/
def substring (s : List Char) (start stop : Int) : List Char :=
  (s.drop start.toNat).take (stop - start.toNat).toNat

end juce

namespace tracktion

/-- The C predicate `isspace` in the C locale. -/
def isspace (c : Char) : Bool :=
  c.toNat == 32 || (9 <= c.toNat && c.toNat <= 13)

/-- The digit loop of `strtol`: accumulates decimal digits until a character is not one. The
value is exact here and is brought into the range of `long` by `saturateLong` afterwards. -/
def atoiDigits (acc : Int) : List Char → Int
  | [] => acc
  | c :: cs =>
    if 48 <= c.toNat && c.toNat <= 57 then atoiDigits (10 * acc + (c.toNat - 48 : Nat)) cs
    else acc

/-- The largest value of a 64-bit `long`. -/
def LONG_MAX : Int := 9223372036854775807

/-- The smallest value of a 64-bit `long`. -/
def LONG_MIN : Int := -9223372036854775808

/-- Saturation of an integer to the range of `long`: what `strtol` returns for a numeral whose
value is out of range. -/
def saturateLong (x : Int) : Int :=
  if x > LONG_MAX then LONG_MAX
  else if x < LONG_MIN then LONG_MIN
  else x

/-- The C function `strtol` in base 10 on the UTF-8 text of a string: white space is skipped,
an optional sign is read, then decimal digits; a value beyond the range of `long` is replaced
by `LONG_MAX` or `LONG_MIN`. Every byte of a character beyond ASCII is at least 128 and stops
the parse just as the character does here. -/
def strtol (s : List Char) : Int :=
  match s.dropWhile isspace with
  | [] => 0
  | c :: cs =>
    if c.toNat == 45 then saturateLong (- atoiDigits 0 cs)
    else if c.toNat == 43 then saturateLong (atoiDigits 0 cs)
    else saturateLong (atoiDigits 0 (c :: cs))

/-- The C function `atoi`: the result of `strtol` in base 10 converted to `int`. -/
def atoi (s : List Char) : Int := wrapInt32 (strtol s)

/-- The two places `rdtsc` can read the cycle count from. -/
inductive CounterSource
  | pmccntr_el0
  | platformCounter
deriving DecidableEq, Repr

/-- The text `iPhone`. -/
def iPhone : List Char := ['i', 'P', 'h', 'o', 'n', 'e']

/-- The text made of one comma. -/
def comma : List Char := [Char.ofNat 44]

/-- The control flow of `rdtsc`: which counter is read for a device description. The code
after the `if` on the description is the platform's regular counter, whichever preprocessor
branch is compiled. -/
def rdtscSource (devDescr : List Char) : CounterSource :=
  if juce.startsWith devDescr iPhone then
    let model := juce.substring devDescr 6 (juce.length devDescr)
    if juce.contains devDescr comma then
      let sepIdx := juce.indexOf model comma
      let major := atoi (juce.substring model 0 sepIdx)
      if major < 8 then CounterSource.pmccntr_el0
      else CounterSource.platformCounter
    else CounterSource.platformCounter
  else CounterSource.platformCounter

/-- The function `rdtsc`: `devDescr` is what `getDeviceDescription` answers, `pmccntr` and
`platformCounter` are what the two hardware counters would read. -/
def rdtsc (devDescr : List Char) (pmccntr platformCounter : Nat) : Nat :=
  match rdtscSource devDescr with
  | CounterSource.pmccntr_el0 => pmccntr
  | CounterSource.platformCounter => platformCounter

/-- The condition for the legacy counter as the specification words it: the description
starts with `iPhone`, contains a comma, and `atoi` of the text between the `iPhone` start and
the first comma is less than 8. -/
def legacyCounterCondition (devDescr : List Char) : Prop :=
  iPhone <+: devDescr ∧ Char.ofNat 44 ∈ devDescr ∧
    atoi ((devDescr.drop 6).takeWhile (fun c => c != Char.ofNat 44)) < 8

/-- The decimal numeral of a natural number. -/
def decimal (n : Nat) : List Char := Nat.toDigits 10 n

end tracktion

/-! ## Quantities named in the statements -/

namespace tracktion

open LevelMeasurerProcessingNode

/-- The latency that `prepareToPlay` computes: root latency minus input latency, in `int`. -/
def latencyToIntroduce (info : PlaybackInitialisationInfo) (s : State) : Int :=
  wrapInt32 (info.nodeGraph.rootNodeProperties.latencyNumSamples
    - (s.self.input.propertiesOnCall s.self.input.numPropertiesCalls).latencyNumSamples)

/-- The channel count of the node's own properties inside `prepareToPlay`: what the input
reports on the second of the two property queries. -/
def desiredChannels (s : State) : Nat :=
  (s.self.input.propertiesOnCall (s.self.input.numPropertiesCalls + 1)).numberOfChannels

/-- The decision `prepareToPlay` takes on sharing the buffers of the source. -/
def sharingDecision (info : PlaybackInitialisationInfo) (s : State) : Bool :=
  (info.enableNodeMemorySharing && s.self.input.numOutputNodes == 1) &&
    decide ((s.self.input.propertiesOnCall s.self.input.numPropertiesCalls).numberOfChannels
      ≥ desiredChannels s)

end tracktion

/-! ## Concrete inputs used to exercise the definitions -/

namespace tracktion

/-- A stand-in for `hash_combine`, used only to evaluate the definitions on examples. -/
def sampleHashCombine (seed v : Nat) : Nat := (seed + 31 * v + 7) % 18446744073709551616

/-- A stereo input with a latency of 64 samples, a single consumer and a non-zero node ID. -/
def sampleInput : Node :=
  { numOutputNodes := 1
    propertiesOnCall := fun _ => { nodeID := 5, numberOfChannels := 2, latencyNumSamples := 64 }
    numPropertiesCalls := 0
    processed := true
    processedOutput := { audio := 0, midi := 0 } }

/-- The input `sampleInput` with a node ID of zero. -/
def sampleInputZeroID : Node :=
  { sampleInput with
    propertiesOnCall := fun _ => { nodeID := 0, numberOfChannels := 2, latencyNumSamples := 64 } }

/-- The input `sampleInput` feeding two consumers. -/
def sampleSharedInput : Node := { sampleInput with numOutputNodes := 2 }

/-- A meter plugin. -/
def samplePlugin : LevelMeterPlugin := { itemID := 1001, showMidiActivity := true }

/-- Initialisation with a root latency of 256 samples, blocks of 128 frames, sharing enabled. -/
def sampleInfo : PlaybackInitialisationInfo :=
  { sampleRate := 44100
    blockSize := 128
    nodeGraph := { rootNodeProperties := { nodeID := 9, numberOfChannels := 2, latencyNumSamples := 256 } }
    enableNodeMemorySharing := true }

/-- The initialisation `sampleInfo` with a root latency of 66 samples and blocks of 2 frames. -/
def sampleShortInfo : PlaybackInitialisationInfo :=
  { sampleInfo with
    blockSize := 2
    nodeGraph := { rootNodeProperties := { nodeID := 9, numberOfChannels := 2, latencyNumSamples := 66 } } }

/-- The initialisation `sampleInfo` with memory sharing disabled. -/
def sampleInfoNoSharing : PlaybackInitialisationInfo :=
  { sampleInfo with enableNodeMemorySharing := false }

/-- A memory in which every audio view is empty. -/
def emptyAudio : Nat → AudioBlock := fun _ => []

/-- A memory in which every event buffer is empty. -/
def emptyMidi : Nat → MidiMessageArray := fun _ => []

/-- A note-on event at the start of the block. -/
def sampleNote : MidiMessage := { timeStamp := 0, bytes := [144, 60, 100] }

/-- A memory of two-frame stereo blocks: address 0 holds the output of the input node, every
other address holds silence. -/
def sampleAudio : Nat → AudioBlock :=
  fun a => if a = 0 then [[1, 2], [3, 4]] else [[0, 0], [0, 0]]

/-- A memory of event buffers: address 0 holds the events of the input node, one note-on, and
every other buffer is empty, as a buffer cleared before the block is. -/
def sampleMidi : Nat → MidiMessageArray :=
  fun a => if a = 0 then [sampleNote] else []

/-- A context whose audio view and event buffer are the node's own, at address 1. -/
def samplePc : ProcessContext := { numSamples := 2, buffers := { audio := 1, midi := 1 } }

/-- A node on a single-consumer input, prepared with a latency of 2 samples to introduce. -/
def samplePreparedState : State :=
  LevelMeasurerProcessingNode.prepareToPlay sampleHashCombine sampleShortInfo
    (LevelMeasurerProcessingNode.fresh sampleInput samplePlugin sampleAudio sampleMidi [])

/-- A node on an input with two consumers, prepared with a latency of 2 samples to
introduce. -/
def sampleSharedState : State :=
  LevelMeasurerProcessingNode.prepareToPlay sampleHashCombine sampleShortInfo
    (LevelMeasurerProcessingNode.fresh sampleSharedInput samplePlugin sampleAudio sampleMidi [])

end tracktion

/-! ## Properties of `getNodeProperties` and `prepareToPlay` -/

namespace tracktion

open LevelMeasurerProcessingNode

theorem getNodeProperties_state (hc : Nat → Nat → Nat) (s : State) :
    (getNodeProperties hc s).2 =
      { s with self := { s.self with input := s.self.input.getNodeProperties.2 } } := by
  simp only [getNodeProperties, Node.getNodeProperties]
  split <;> rfl

theorem getNodeProperties_numberOfChannels (hc : Nat → Nat → Nat) (s : State) :
    (getNodeProperties hc s).1.numberOfChannels
      = (s.self.input.propertiesOnCall s.self.input.numPropertiesCalls).numberOfChannels := by
  simp only [getNodeProperties, Node.getNodeProperties]
  split <;> rfl

theorem getNodeProperties_latencyNumSamples (hc : Nat → Nat → Nat) (s : State) :
    (getNodeProperties hc s).1.latencyNumSamples
      = (s.self.input.propertiesOnCall s.self.input.numPropertiesCalls).latencyNumSamples := by
  simp only [getNodeProperties, Node.getNodeProperties]
  split <;> rfl

theorem wrapInt32_of_fits (x : Int) (h1 : -2147483648 ≤ x) (h2 : x ≤ 2147483647) :
    wrapInt32 x = x := by
  unfold wrapInt32
  omega

/-- C6: when the input reports a node ID of 0, `getNodeProperties` returns the input's
properties as they are, for every `hash_combine` and every item ID of the plugin; in
particular the returned node ID is 0. -/
theorem getNodeProperties_zero_propagates (hc : Nat → Nat → Nat) (s : State)
    (h : (s.self.input.propertiesOnCall s.self.input.numPropertiesCalls).nodeID = 0) :
    (getNodeProperties hc s).1.nodeID = 0 ∧
    (getNodeProperties hc s).1
      = s.self.input.propertiesOnCall s.self.input.numPropertiesCalls := by
  unfold getNodeProperties
  simp [Node.getNodeProperties, h]

theorem getNodeProperties_zero_propagates_witness :
    (getNodeProperties sampleHashCombine
      (fresh sampleInputZeroID samplePlugin emptyAudio emptyMidi [])).1.nodeID = 0 :=
  (getNodeProperties_zero_propagates sampleHashCombine
    (fresh sampleInputZeroID samplePlugin emptyAudio emptyMidi []) rfl).1

theorem prepareToPlay_latencyProcessor (hc : Nat → Nat → Nat) (info : PlaybackInitialisationInfo)
    (s : State) :
    (prepareToPlay hc info s).self.latencyProcessor =
      if latencyToIntroduce info s ≤ 0 then s.self.latencyProcessor
      else some ((({} : LatencyProcessor).setLatencyNumSamples (latencyToIntroduce info s)).prepareToPlay
        info.sampleRate info.blockSize (desiredChannels s)) := by
  simp only [prepareToPlay, initialisePlugin, record, getNodeProperties_state,
    getNodeProperties_numberOfChannels, Node.getNodeProperties, setOptimisations,
    latencyToIntroduce, desiredChannels]
  repeat' split
  all_goals rfl

theorem prepareToPlay_tempAudioBuffer (hc : Nat → Nat → Nat) (info : PlaybackInitialisationInfo)
    (s : State) :
    (prepareToPlay hc info s).self.tempAudioBuffer =
      if latencyToIntroduce info s ≤ 0 then s.self.tempAudioBuffer
      else s.self.tempAudioBuffer.resize (desiredChannels s) info.blockSize := by
  simp only [prepareToPlay, initialisePlugin, record, getNodeProperties_state,
    getNodeProperties_numberOfChannels, Node.getNodeProperties, setOptimisations,
    latencyToIntroduce, desiredChannels]
  repeat' split
  all_goals rfl

theorem prepareToPlay_canUseSourceBuffers (hc : Nat → Nat → Nat)
    (info : PlaybackInitialisationInfo) (s : State) :
    (prepareToPlay hc info s).self.canUseSourceBuffers =
      (sharingDecision info s || s.self.canUseSourceBuffers) := by
  simp only [prepareToPlay, initialisePlugin, record, getNodeProperties_state,
    getNodeProperties_numberOfChannels, Node.getNodeProperties, setOptimisations,
    sharingDecision, desiredChannels]
  repeat' split
  all_goals simp_all

theorem prepareToPlay_calls (hc : Nat → Nat → Nat) (info : PlaybackInitialisationInfo)
    (s : State) :
    (prepareToPlay hc info s).calls =
      s.calls ++ Call.baseClassInitialise 0 0 0 ::
        (if sharingDecision info s then
          [Call.setOptimisations { clear := ClearBuffers.no, allocate := AllocateAudioBuffer.no }]
         else []) := by
  simp only [prepareToPlay, initialisePlugin, record, getNodeProperties_state,
    getNodeProperties_numberOfChannels, Node.getNodeProperties, setOptimisations,
    sharingDecision, desiredChannels]
  repeat' split
  all_goals (simp_all <;> omega)

theorem prepareToPlay_isInitialised (hc : Nat → Nat → Nat) (info : PlaybackInitialisationInfo)
    (s : State) : (prepareToPlay hc info s).self.isInitialised = true := by
  simp only [prepareToPlay, initialisePlugin, record, getNodeProperties_state,
    getNodeProperties_numberOfChannels, Node.getNodeProperties, setOptimisations]
  repeat' split
  all_goals rfl

/-- C1: on a freshly constructed node, when the difference `R - I` of the root latency and the
input latency fits in an `int`, `prepareToPlay` leaves a latency processor exactly when
`R - I > 0`; it is then the processor configured by `setLatencyNumSamples (R - I)` and prepared
with the sample rate, the block size and the node's channel count (the channel count the input
reports to the node's own `getNodeProperties`), and the scratch buffer has that channel count
and the block size as its size; when `R - I <= 0` there is no processor and the scratch buffer is
as constructed. -/
theorem prepareToPlay_creates_latency_processor_iff (hc : Nat → Nat → Nat) (info : PlaybackInitialisationInfo)
    (inputNode : Node) (plugin : LevelMeterPlugin) (audio : Nat → AudioBlock)
    (midi : Nat → MidiMessageArray) (calls : List Call) (R I : Int)
    (hR : info.nodeGraph.rootNodeProperties.latencyNumSamples = R)
    (hI : (inputNode.propertiesOnCall inputNode.numPropertiesCalls).latencyNumSamples = I)
    (hlo : -2147483648 ≤ R - I) (hhi : R - I ≤ 2147483647) :
    ((prepareToPlay hc info (fresh inputNode plugin audio midi calls)).self.latencyProcessor.isSome
        = true ↔ R - I > 0) ∧
    (R - I > 0 →
      (prepareToPlay hc info (fresh inputNode plugin audio midi calls)).self.latencyProcessor
        = some ((({} : LatencyProcessor).setLatencyNumSamples (R - I)).prepareToPlay
            info.sampleRate info.blockSize
            (inputNode.propertiesOnCall (inputNode.numPropertiesCalls + 1)).numberOfChannels) ∧
      (prepareToPlay hc info (fresh inputNode plugin audio midi calls)).self.tempAudioBuffer
        = ({} : ChannelArrayBuffer).resize
            (inputNode.propertiesOnCall (inputNode.numPropertiesCalls + 1)).numberOfChannels
            info.blockSize ∧
      (prepareToPlay hc info (fresh inputNode plugin audio midi calls)).self.tempAudioBuffer.numChannels
        = (inputNode.propertiesOnCall (inputNode.numPropertiesCalls + 1)).numberOfChannels ∧
      (prepareToPlay hc info (fresh inputNode plugin audio midi calls)).self.tempAudioBuffer.numFrames
        = info.blockSize) ∧
    (R - I ≤ 0 →
      (prepareToPlay hc info (fresh inputNode plugin audio midi calls)).self.latencyProcessor = none ∧
      (prepareToPlay hc info (fresh inputNode plugin audio midi calls)).self.tempAudioBuffer = {}) := by
  have hw : latencyToIntroduce info (fresh inputNode plugin audio midi calls) = R - I := by
    simp only [latencyToIntroduce, fresh, new, hR, hI]
    exact wrapInt32_of_fits _ hlo hhi
  have hd : desiredChannels (fresh inputNode plugin audio midi calls)
      = (inputNode.propertiesOnCall (inputNode.numPropertiesCalls + 1)).numberOfChannels := rfl
  rw [prepareToPlay_latencyProcessor, prepareToPlay_tempAudioBuffer, hw, hd]
  by_cases hpos : R - I ≤ 0
  · have hnot : ¬ (R - I > 0) := by omega
    rw [if_pos hpos, if_pos hpos]
    exact ⟨by simp [fresh, new, hnot], fun h => absurd h hnot, fun _ => ⟨rfl, rfl⟩⟩
  · have hgt : R - I > 0 := by omega
    rw [if_neg hpos, if_neg hpos]
    exact ⟨by simp [hgt], fun _ => ⟨rfl, rfl, rfl, rfl⟩, fun h => absurd h hpos⟩

theorem prepareToPlay_creates_latency_processor_iff_witness :
    (-2147483648 : Int) ≤ 256 - 64 ∧ (256 : Int) - 64 ≤ 2147483647 ∧
    ((prepareToPlay sampleHashCombine sampleInfo
        (fresh sampleInput samplePlugin emptyAudio emptyMidi [])).self.latencyProcessor.map
      (fun lp => lp.latencyNumSamples)) = some 192 := by
  have h := prepareToPlay_creates_latency_processor_iff sampleHashCombine sampleInfo sampleInput samplePlugin
    emptyAudio emptyMidi [] 256 64 rfl rfl (by decide) (by decide)
  refine ⟨by decide, by decide, ?_⟩
  rw [(h.2.1 (by decide)).1]
  rfl

/-- C2, as stated, fails: with memory sharing disabled in the initialisation info, an input
with a single consumer and as many channels as the node wants leaves `canUseSourceBuffers`
false, and `setOptimisations` is not called. -/
theorem sharing_flag_off_blocks_source_buffers :
    sampleInput.numOutputNodes = 1 ∧
    (sampleInput.propertiesOnCall sampleInput.numPropertiesCalls).numberOfChannels
      ≥ (sampleInput.propertiesOnCall (sampleInput.numPropertiesCalls + 1)).numberOfChannels ∧
    (prepareToPlay sampleHashCombine sampleInfoNoSharing
      (fresh sampleInput samplePlugin emptyAudio emptyMidi [])).self.canUseSourceBuffers = false ∧
    (prepareToPlay sampleHashCombine sampleInfoNoSharing
      (fresh sampleInput samplePlugin emptyAudio emptyMidi [])).calls
        = [Call.baseClassInitialise 0 0 0] := by
  refine ⟨rfl, by decide, ?_, ?_⟩
  · rw [prepareToPlay_canUseSourceBuffers]; rfl
  · rw [prepareToPlay_calls]; rfl

/-- C2, amended: on a freshly constructed node, if `info.enableNodeMemorySharing` is true, the
input has a single consumer and reports at least as many channels as the node's own
properties, then after `prepareToPlay` the flag `canUseSourceBuffers` is true and the calls
made are the initialisation of the plugin followed by
`setOptimisations ({ ClearBuffers::no, AllocateAudioBuffer::no })`. -/
theorem sharing_enabled_sets_source_buffers (hc : Nat → Nat → Nat) (info : PlaybackInitialisationInfo)
    (inputNode : Node) (plugin : LevelMeterPlugin) (audio : Nat → AudioBlock)
    (midi : Nat → MidiMessageArray) (calls : List Call)
    (hflag : info.enableNodeMemorySharing = true)
    (hone : inputNode.numOutputNodes = 1)
    (hch : (inputNode.propertiesOnCall inputNode.numPropertiesCalls).numberOfChannels
      ≥ (inputNode.propertiesOnCall (inputNode.numPropertiesCalls + 1)).numberOfChannels) :
    (prepareToPlay hc info (fresh inputNode plugin audio midi calls)).self.canUseSourceBuffers
      = true ∧
    (prepareToPlay hc info (fresh inputNode plugin audio midi calls)).calls
      = calls ++ [Call.baseClassInitialise 0 0 0,
          Call.setOptimisations { clear := ClearBuffers.no, allocate := AllocateAudioBuffer.no }] := by
  have hd : sharingDecision info (fresh inputNode plugin audio midi calls) = true := by
    simp [sharingDecision, desiredChannels, fresh, new, hflag, hone, hch]
  rw [prepareToPlay_canUseSourceBuffers, prepareToPlay_calls, hd]
  exact ⟨rfl, rfl⟩

theorem sharing_enabled_sets_source_buffers_witness :
    sampleInfo.enableNodeMemorySharing = true ∧ sampleInput.numOutputNodes = 1 ∧
    (prepareToPlay sampleHashCombine sampleInfo
      (fresh sampleInput samplePlugin emptyAudio emptyMidi [])).self.canUseSourceBuffers = true :=
  ⟨rfl, rfl, (sharing_enabled_sets_source_buffers sampleHashCombine sampleInfo sampleInput samplePlugin
    emptyAudio emptyMidi [] rfl rfl (by decide)).1⟩

/-- C9: on a freshly constructed node whose input answers every `getNodeProperties` call with
the same properties, `canUseSourceBuffers` is true after `prepareToPlay` exactly when
`info.enableNodeMemorySharing` is true and the input has a single consumer; the channel
comparison holds in every such call, and `getNodeProperties` of the node returns the channel
count and the latency of its input unchanged. -/
theorem canUseSourceBuffers_iff_flag_and_single_consumer (hc : Nat → Nat → Nat) (info : PlaybackInitialisationInfo)
    (inputNode : Node) (plugin : LevelMeterPlugin) (audio : Nat → AudioBlock)
    (midi : Nat → MidiMessageArray) (calls : List Call)
    (hconst : ∀ i j, inputNode.propertiesOnCall i = inputNode.propertiesOnCall j) :
    ((prepareToPlay hc info (fresh inputNode plugin audio midi calls)).self.canUseSourceBuffers
        = true ↔ (info.enableNodeMemorySharing = true ∧ inputNode.numOutputNodes = 1)) ∧
    (inputNode.propertiesOnCall inputNode.numPropertiesCalls).numberOfChannels
      ≥ desiredChannels (fresh inputNode plugin audio midi calls) ∧
    (getNodeProperties hc (fresh inputNode plugin audio midi calls)).1.numberOfChannels
      = (inputNode.propertiesOnCall inputNode.numPropertiesCalls).numberOfChannels ∧
    (getNodeProperties hc (fresh inputNode plugin audio midi calls)).1.latencyNumSamples
      = (inputNode.propertiesOnCall inputNode.numPropertiesCalls).latencyNumSamples := by
  have hd : desiredChannels (fresh inputNode plugin audio midi calls)
      = (inputNode.propertiesOnCall inputNode.numPropertiesCalls).numberOfChannels := by
    simp only [desiredChannels, fresh, new]
    rw [hconst (inputNode.numPropertiesCalls + 1) inputNode.numPropertiesCalls]
  refine ⟨?_, by rw [hd], ?_, ?_⟩
  · rw [prepareToPlay_canUseSourceBuffers]
    simp only [sharingDecision, hd]
    simp [fresh, new]
  · rw [getNodeProperties_numberOfChannels]; rfl
  · rw [getNodeProperties_latencyNumSamples]; rfl

theorem canUseSourceBuffers_iff_flag_and_single_consumer_witness :
    (prepareToPlay sampleHashCombine sampleInfo
      (fresh sampleInput samplePlugin emptyAudio emptyMidi [])).self.canUseSourceBuffers = true ↔
      (sampleInfo.enableNodeMemorySharing = true ∧ sampleInput.numOutputNodes = 1) :=
  (canUseSourceBuffers_iff_flag_and_single_consumer sampleHashCombine sampleInfo sampleInput samplePlugin
    emptyAudio emptyMidi [] (fun _ _ => rfl)).1

end tracktion

/-! ## Properties of `process` -/

namespace tracktion

open LevelMeasurerProcessingNode

theorem process_input (pc : ProcessContext) (s : State) :
    (process pc s).self.input = s.self.input := by
  simp only [process, setAudioOutput, swapWith, copyIfNotAliased, copyFrom, record,
    processLevelMeasurer]
  repeat' split
  all_goals rfl

/-- C3: when the input has more than one consumer, with or without a latency processor,
`process` calls `copyFrom` and `copyIfNotAliased` on the views of the context and of the
input, calls neither `swapWith` nor `setAudioOutput`, and leaves the input node, the audio its
output view denotes and the events its output references exactly as they were. -/
theorem process_shared_input_copies (pc : ProcessContext) (s : State)
    (h : s.self.input.numOutputNodes > 1) :
    Call.copyFrom pc.buffers.midi s.self.input.getProcessedOutput.midi
      ∈ newCalls s (process pc s) ∧
    Call.copyIfNotAliased pc.buffers.audio s.self.input.getProcessedOutput.audio
      ∈ newCalls s (process pc s) ∧
    (∀ a b, Call.swapWith a b ∉ newCalls s (process pc s)) ∧
    (∀ v, Call.setAudioOutput v ∉ newCalls s (process pc s)) ∧
    (process pc s).self.input = s.self.input ∧
    (process pc s).audio s.self.input.getProcessedOutput.audio
      = s.audio s.self.input.getProcessedOutput.audio ∧
    (process pc s).midi s.self.input.getProcessedOutput.midi
      = s.midi s.self.input.getProcessedOutput.midi := by
  have hne : ¬ s.self.input.numOutputNodes = 1 := by omega
  refine ⟨?_, ?_, ?_, ?_, process_input pc s, ?_, ?_⟩
  all_goals
    cases hlp : s.self.latencyProcessor <;>
    by_cases halias : pc.buffers.audio = s.self.input.getProcessedOutput.audio <;>
    by_cases hm : pc.buffers.midi = s.self.input.getProcessedOutput.midi <;>
    simp [process, copyIfNotAliased, copyFrom, record, processLevelMeasurer, newCalls, hne,
      hlp, halias, hm, Function.update]
  all_goals (intro heq; exact absurd heq.symm halias)

/-- C5: when source and destination have the same number of channels, for every number of
consumers of the input and with or without a latency processor, the audio and the events the
node presents as its output after `process` are the audio and the events the input presented
before the call; no delay is applied to them. -/
theorem process_output_is_input (pc : ProcessContext) (s : State)
    (h : processAssertion pc s = true) :
    outputAudio pc s (process pc s) = s.audio s.self.input.getProcessedOutput.audio ∧
    outputMidi pc (process pc s) = s.midi s.self.input.getProcessedOutput.midi := by
  have hch : (s.audio s.self.input.getProcessedOutput.audio).length
      = (s.audio pc.buffers.audio).length := by
    simpa [processAssertion, AudioBlock.getNumChannels] using h
  have hcopy : copy (s.audio pc.buffers.audio) (s.audio s.self.input.getProcessedOutput.audio)
      = s.audio s.self.input.getProcessedOutput.audio := by
    simp [copy, AudioBlock.getNumChannels, ← hch]
  constructor
  all_goals
    cases hlp : s.self.latencyProcessor <;>
    by_cases hone : s.self.input.numOutputNodes = 1 <;>
    by_cases halias : pc.buffers.audio = s.self.input.getProcessedOutput.audio <;>
    by_cases hm : pc.buffers.midi = s.self.input.getProcessedOutput.midi <;>
    simp [process, outputAudio, outputMidi, lastAudioOutput, setAudioOutput, swapWith,
      copyIfNotAliased, copyFrom, record, processLevelMeasurer, newCalls, hone,
      hlp, halias, hm, Function.update, hcopy]

theorem process_shared_input_copies_witness :
    sampleSharedState.self.input.numOutputNodes > 1 ∧
    (process samplePc sampleSharedState).midi 0 = [sampleNote] ∧
    (process samplePc sampleSharedState).audio 0 = [[1, 2], [3, 4]] :=
  ⟨by decide,
   (process_shared_input_copies samplePc sampleSharedState (by decide)).2.2.2.2.2.2,
   (process_shared_input_copies samplePc sampleSharedState (by decide)).2.2.2.2.2.1⟩

theorem process_output_is_input_witness :
    processAssertion samplePc samplePreparedState = true ∧
    outputAudio samplePc samplePreparedState (process samplePc samplePreparedState)
      = [[1, 2], [3, 4]] ∧
    outputMidi samplePc (process samplePc samplePreparedState) = [sampleNote] :=
  ⟨by decide, process_output_is_input samplePc samplePreparedState (by decide)⟩

/-- In the steal branch with a latency processor, the events written to the latency processor
are those the context's event buffer held before the call, whenever that buffer is not the
input's own. -/
theorem process_steal_writes_context_midi (pc : ProcessContext) (s : State)
    (lp : LatencyProcessor) (hone : s.self.input.numOutputNodes = 1)
    (hlp : s.self.latencyProcessor = some lp)
    (hm : pc.buffers.midi ≠ s.self.input.getProcessedOutput.midi) :
    Call.writeMIDI (s.midi pc.buffers.midi) ∈ newCalls s (process pc s) ∧
    ∀ events, Call.writeMIDI events ∈ newCalls s (process pc s) →
      events = s.midi pc.buffers.midi := by
  have hm2 : ¬ s.self.input.getProcessedOutput.midi = pc.buffers.midi := fun e => hm e.symm
  simp [process, setAudioOutput, swapWith, record, processLevelMeasurer, newCalls, hone, hlp,
    hm, hm2, Function.update]

/-- C4 fails in the steal branch: on a prepared node with a latency processor whose input has
a single consumer and produced one note-on, `process` writes the input's audio to the latency
processor but writes an empty event list, the former content of the context's buffer, and not
the input's note-on; with two consumers the note-on is written. -/
theorem process_steal_writes_stale_midi :
    samplePreparedState.self.input.numOutputNodes = 1 ∧
    samplePreparedState.self.latencyProcessor.isSome = true ∧
    samplePreparedState.midi samplePreparedState.self.input.getProcessedOutput.midi
      = [sampleNote] ∧
    newCalls samplePreparedState (process samplePc samplePreparedState)
      = [Call.swapWith 1 0, Call.setAudioOutput 0, Call.writeAudio [[1, 2], [3, 4]],
         Call.writeMIDI [], Call.readAudioOverwriting 2, Call.readMIDI 2,
         Call.processBuffer [[0, 0], [0, 0]] 0 2, Call.setShowMidi true, Call.processMidi []] ∧
    (process samplePc samplePreparedState).self.latencyProcessor.map (fun lp => lp.midi)
      = some [] ∧
    Call.writeMIDI [sampleNote] ∈ newCalls sampleSharedState (process samplePc sampleSharedState) ∧
    (process samplePc sampleSharedState).self.latencyProcessor.map (fun lp => lp.midi)
      = some [{ timeStamp := 0, bytes := [144, 60, 100] }] := by
  refine ⟨by decide, by decide, by decide, by decide, by decide, by decide, by decide⟩

end tracktion

/-! ## Properties of the destructor -/

namespace tracktion

open LevelMeasurerProcessingNode

theorem process_isInitialised (pc : ProcessContext) (s : State) :
    (process pc s).self.isInitialised = s.self.isInitialised := by
  simp only [process, setAudioOutput, swapWith, copyIfNotAliased, copyFrom, record,
    processLevelMeasurer]
  repeat' split
  all_goals rfl

theorem process_calls (pc : ProcessContext) (s : State) :
    ∃ extra, (process pc s).calls = s.calls ++ extra ∧ Call.baseClassDeinitialise ∉ extra := by
  cases hlp : s.self.latencyProcessor <;>
  by_cases hone : s.self.input.numOutputNodes = 1 <;>
  by_cases halias : pc.buffers.audio = s.self.input.getProcessedOutput.audio <;>
  simp [process, setAudioOutput, swapWith, copyIfNotAliased, copyFrom, record,
    processLevelMeasurer, hone, hlp, halias]

theorem applyCall_isInitialised (hc : Nat → Nat → Nat) (c : LifecycleCall) (s : State) :
    (applyCall hc c s).self.isInitialised = (c.isPrepareToPlay || s.self.isInitialised) := by
  cases c with
  | getNodeProperties => simp [applyCall, getNodeProperties_state, LifecycleCall.isPrepareToPlay]
  | getDirectInputNodes => simp [applyCall, LifecycleCall.isPrepareToPlay]
  | isReadyToProcess => simp [applyCall, LifecycleCall.isPrepareToPlay]
  | prepareToPlay info =>
    simp [applyCall, prepareToPlay_isInitialised, LifecycleCall.isPrepareToPlay]
  | preProcess n r =>
    simp only [applyCall, preProcess, setBufferViewToUse, record, LifecycleCall.isPrepareToPlay]
    split <;> simp
  | process pc => simp [applyCall, process_isInitialised, LifecycleCall.isPrepareToPlay]
  | graphStep i a m => simp [applyCall, LifecycleCall.isPrepareToPlay]

theorem applyCall_calls (hc : Nat → Nat → Nat) (c : LifecycleCall) (s : State) :
    ∃ extra, (applyCall hc c s).calls = s.calls ++ extra
      ∧ Call.baseClassDeinitialise ∉ extra := by
  cases c with
  | getNodeProperties => exact ⟨[], by simp [applyCall, getNodeProperties_state]⟩
  | getDirectInputNodes => exact ⟨[], by simp [applyCall]⟩
  | isReadyToProcess => exact ⟨[], by simp [applyCall]⟩
  | prepareToPlay info =>
    refine ⟨_, prepareToPlay_calls hc info s, ?_⟩
    split <;> simp
  | preProcess n r =>
    simp only [applyCall, preProcess, setBufferViewToUse, record]
    split
    · exact ⟨_, rfl, by simp⟩
    · exact ⟨[], by simp⟩
  | process pc => exact process_calls pc s
  | graphStep i a m => exact ⟨[], by simp [applyCall]⟩

theorem runCalls_append (hc : Nat → Nat → Nat) (cs : List LifecycleCall) (c : LifecycleCall)
    (s : State) : runCalls hc (cs ++ [c]) s = applyCall hc c (runCalls hc cs s) := by
  simp [runCalls, List.foldl_append]

theorem runCalls_isInitialised (hc : Nat → Nat → Nat) (cs : List LifecycleCall) (s : State) :
    (runCalls hc cs s).self.isInitialised
      = (cs.any LifecycleCall.isPrepareToPlay || s.self.isInitialised) := by
  induction cs using List.reverseRecOn with
  | nil => simp [runCalls]
  | append_singleton cs c ih =>
    rw [runCalls_append, applyCall_isInitialised, ih]
    simp only [List.any_append, List.any_cons, List.any_nil, Bool.or_false]
    cases c.isPrepareToPlay <;> cases cs.any LifecycleCall.isPrepareToPlay <;> simp

theorem runCalls_calls (hc : Nat → Nat → Nat) (cs : List LifecycleCall) (s : State) :
    ∃ extra, (runCalls hc cs s).calls = s.calls ++ extra
      ∧ Call.baseClassDeinitialise ∉ extra := by
  induction cs using List.reverseRecOn with
  | nil => exact ⟨[], by simp [runCalls]⟩
  | append_singleton cs c ih =>
    obtain ⟨e1, h1, n1⟩ := ih
    obtain ⟨e2, h2, n2⟩ := applyCall_calls hc c (runCalls hc cs s)
    refine ⟨e1 ++ e2, ?_, ?_⟩
    · rw [runCalls_append, h2, h1, List.append_assoc]
    · simp [n1, n2]

/-- C8: for every sequence of lifecycle calls made on a freshly constructed node, the calls the
node makes from construction to the end of its destructor contain `baseClassDeinitialise` at
most once; the destructor makes that call exactly when `prepareToPlay` is among the lifecycle
calls and `baseClassNeedsInitialising` answers false at destruction; a node that was never
prepared makes no call in its destructor. -/
theorem destructor_deinitialises_once (hc : Nat → Nat → Nat) (cs : List LifecycleCall)
    (inputNode : Node) (plugin : LevelMeterPlugin) (audio : Nat → AudioBlock)
    (midi : Nat → MidiMessageArray) (calls : List Call) (needsInitialising : Bool) :
    (newCalls (fresh inputNode plugin audio midi calls)
        (destructor needsInitialising
          (runCalls hc cs (fresh inputNode plugin audio midi calls)))).count
      Call.baseClassDeinitialise ≤ 1 ∧
    (Call.baseClassDeinitialise ∈
        newCalls (runCalls hc cs (fresh inputNode plugin audio midi calls))
          (destructor needsInitialising
            (runCalls hc cs (fresh inputNode plugin audio midi calls)))
      ↔ ((∃ c ∈ cs, c.isPrepareToPlay = true) ∧ needsInitialising = false)) ∧
    ((∀ c ∈ cs, c.isPrepareToPlay = false) →
      destructor needsInitialising (runCalls hc cs (fresh inputNode plugin audio midi calls))
        = runCalls hc cs (fresh inputNode plugin audio midi calls)) := by
  have hinit := runCalls_isInitialised hc cs (fresh inputNode plugin audio midi calls)
  obtain ⟨extra, hcalls, hno⟩ := runCalls_calls hc cs (fresh inputNode plugin audio midi calls)
  have hfresh : (fresh inputNode plugin audio midi calls).self.isInitialised = false := rfl
  rw [hfresh, Bool.or_false] at hinit
  refine ⟨?_, ?_, ?_⟩
  · unfold destructor
    split
    · simp only [newCalls, record, hcalls, List.append_assoc, List.drop_left]
      rw [List.count_append, List.count_eq_zero_of_not_mem hno]
      simp
    · simp only [newCalls, hcalls, List.drop_left]
      rw [List.count_eq_zero_of_not_mem hno]
      omega
  · unfold destructor
    rw [hinit]
    cases hany : cs.any LifecycleCall.isPrepareToPlay <;> cases needsInitialising <;>
      simp [newCalls, record] <;> simpa using hany
  · intro hnone
    unfold destructor
    rw [hinit]
    have : cs.any LifecycleCall.isPrepareToPlay = false := by
      simpa using hnone
    simp [this]

theorem destructor_deinitialises_once_witness :
    Call.baseClassDeinitialise ∈
      newCalls
        (runCalls sampleHashCombine
          [LifecycleCall.prepareToPlay sampleInfo, LifecycleCall.process samplePc]
          (fresh sampleInput samplePlugin sampleAudio sampleMidi []))
        (destructor false
          (runCalls sampleHashCombine
            [LifecycleCall.prepareToPlay sampleInfo, LifecycleCall.process samplePc]
            (fresh sampleInput samplePlugin sampleAudio sampleMidi []))) :=
  (destructor_deinitialises_once sampleHashCombine
    [LifecycleCall.prepareToPlay sampleInfo, LifecycleCall.process samplePc]
    sampleInput samplePlugin sampleAudio sampleMidi [] false).2.1.mpr
    ⟨⟨LifecycleCall.prepareToPlay sampleInfo, by simp, rfl⟩, rfl⟩

end tracktion

/-! ## Properties of `rdtsc` -/

namespace tracktion

theorem indexOf_comma_cons (c : Char) (t : List Char) :
    juce.indexOf (c :: t) comma =
      if c = Char.ofNat 44 then 0
      else if juce.indexOf t comma < 0 then -1 else juce.indexOf t comma + 1 := by
  rw [juce.indexOf]
  by_cases h : c = Char.ofNat 44
  · simp [comma, h]
  · have h2 : ¬ Char.ofNat 44 = c := fun e => h e.symm
    simp [comma, h, h2]

theorem indexOf_comma_nil : juce.indexOf [] comma = -1 := by
  rw [juce.indexOf]
  simp [comma]

theorem indexOf_comma_of_mem (s : List Char) (h : Char.ofNat 44 ∈ s) :
    juce.indexOf s comma = ((s.takeWhile (fun c => c != Char.ofNat 44)).length : Int) := by
  induction s with
  | nil => simp at h
  | cons c t ih =>
    rw [indexOf_comma_cons]
    by_cases hc : c = Char.ofNat 44
    · simp [hc]
    · have ht : Char.ofNat 44 ∈ t := by
        rcases List.mem_cons.mp h with h1 | h1
        · exact absurd h1.symm hc
        · exact h1
      have := ih ht
      simp only [hc, if_false, this]
      have hnn : ¬ (((t.takeWhile (fun c => c != Char.ofNat 44)).length : Int) < 0) := by omega
      simp [hnn, List.takeWhile_cons, hc]

theorem indexOf_comma_of_not_mem (s : List Char) (h : Char.ofNat 44 ∉ s) :
    juce.indexOf s comma = -1 := by
  induction s with
  | nil => exact indexOf_comma_nil
  | cons c t ih =>
    rw [indexOf_comma_cons]
    have hc : ¬ c = Char.ofNat 44 := fun e => h (by simp [e])
    have ht : Char.ofNat 44 ∉ t := fun e => h (List.mem_cons_of_mem _ e)
    simp [hc, ih ht]

theorem contains_comma_iff (s : List Char) :
    juce.contains s comma = true ↔ Char.ofNat 44 ∈ s := by
  unfold juce.contains
  by_cases h : Char.ofNat 44 ∈ s
  · rw [indexOf_comma_of_mem s h]
    simp [h]
  · rw [indexOf_comma_of_not_mem s h]
    simp [h]

theorem substring_to_end (s : List Char) (n : Nat) :
    juce.substring s n (juce.length s) = s.drop n := by
  unfold juce.substring juce.length
  rw [Int.toNat_ofNat]
  apply List.take_of_length_le
  rw [List.length_drop]
  omega

theorem substring_before_comma (s : List Char) (h : Char.ofNat 44 ∈ s) :
    juce.substring s 0 (juce.indexOf s comma) = s.takeWhile (fun c => c != Char.ofNat 44) := by
  rw [indexOf_comma_of_mem s h]
  unfold juce.substring
  simp only [Int.toNat_zero, List.drop_zero, Int.ofNat_zero, sub_zero, Int.toNat_ofNat]
  exact ((List.prefix_iff_eq_take).mp (List.takeWhile_prefix _)).symm

theorem comma_mem_drop_iPhone (d : List Char) (hp : iPhone <+: d) :
    Char.ofNat 44 ∈ d.drop 6 ↔ Char.ofNat 44 ∈ d := by
  obtain ⟨rest, rfl⟩ := hp
  have hlen : iPhone.length = 6 := rfl
  rw [← hlen, List.drop_left]
  simp [iPhone]

theorem rdtscSource_iff_condition (d : List Char) :
    rdtscSource d = CounterSource.pmccntr_el0 ↔ legacyCounterCondition d := by
  unfold rdtscSource legacyCounterCondition
  by_cases hp : iPhone <+: d
  · have hs : juce.startsWith d iPhone = true := by
      simpa [juce.startsWith] using hp
    by_cases hc : Char.ofNat 44 ∈ d
    · have hcont : juce.contains d comma = true := (contains_comma_iff d).mpr hc
      have hm : Char.ofNat 44 ∈ d.drop 6 := (comma_mem_drop_iPhone d hp).mpr hc
      have hsub := substring_to_end d 6
      simp only [Nat.cast_ofNat] at hsub
      simp only [hs, hcont, if_true, hsub, substring_before_comma _ hm]
      by_cases hlt : atoi ((d.drop 6).takeWhile (fun c => c != Char.ofNat 44)) < 8
      · simp [hlt, hp, hc]
      · simp [hlt]
    · have hcont : ¬ juce.contains d comma = true := fun e => hc ((contains_comma_iff d).mp e)
      simp [hs, hcont, hc]
  · have hs : ¬ juce.startsWith d iPhone = true := by
      simpa [juce.startsWith] using hp
    simp [hs, hp]

theorem digitChar_toNat (k : Nat) (h : k < 10) : (Nat.digitChar k).toNat = 48 + k := by
  interval_cases k <;> rfl

theorem atoiDigits_digitChar (acc : Int) (k : Nat) (h : k < 10) (rest : List Char) :
    atoiDigits acc (Nat.digitChar k :: rest) = atoiDigits (10 * acc + k) rest := by
  rw [atoiDigits, digitChar_toNat k h]
  have h1 : (48 ≤ 48 + k) := by omega
  have h2 : (48 + k ≤ 57) := by omega
  simp [h1, h2]

theorem toDigitsCore_spec (fuel : Nat) : ∀ (n : Nat) (ds : List Char), n < fuel →
    ∃ pre, Nat.toDigitsCore 10 fuel n ds = pre ++ ds ∧ pre ≠ [] ∧
      (∀ c ∈ pre, 48 ≤ c.toNat ∧ c.toNat ≤ 57) ∧
      ∀ rest, atoiDigits 0 (pre ++ rest) = atoiDigits (n : Int) rest := by
  induction fuel with
  | zero => intro n ds h; omega
  | succ fuel ih =>
    intro n ds h
    have hmod : n % 10 < 10 := Nat.mod_lt _ (by decide)
    have hd := digitChar_toNat (n % 10) hmod
    by_cases hz : n / 10 = 0
    · refine ⟨[Nat.digitChar (n % 10)], by simp [Nat.toDigitsCore, hz], by simp, ?_, ?_⟩
      · intro c hc
        simp only [List.mem_singleton] at hc
        subst hc
        omega
      · intro rest
        have hn : n % 10 = n := by omega
        rw [List.singleton_append, atoiDigits_digitChar 0 _ hmod, hn]
        simp
    · have hlt : n / 10 < fuel := by omega
      obtain ⟨pre, hpre, _, hdig, hval⟩ := ih (n / 10) (Nat.digitChar (n % 10) :: ds) hlt
      refine ⟨pre ++ [Nat.digitChar (n % 10)], ?_, by simp, ?_, ?_⟩
      · simp [Nat.toDigitsCore, hz, hpre]
      · intro c hc
        rcases List.mem_append.mp hc with h1 | h1
        · exact hdig c h1
        · simp only [List.mem_singleton] at h1
          subst h1
          omega
      · intro rest
        rw [List.append_assoc, List.singleton_append, hval, atoiDigits_digitChar _ _ hmod]
        congr 1
        omega

theorem decimal_spec (n : Nat) :
    decimal n ≠ [] ∧ (∀ c ∈ decimal n, 48 ≤ c.toNat ∧ c.toNat ≤ 57) ∧
      atoiDigits 0 (decimal n) = n := by
  obtain ⟨pre, hpre, hne, hdig, hval⟩ := toDigitsCore_spec (n + 1) n [] (by omega)
  have hdec : decimal n = pre := by
    simp [decimal, Nat.toDigits, hpre]
  rw [hdec]
  refine ⟨hne, hdig, ?_⟩
  have := hval []
  simpa [atoiDigits] using this

theorem atoi_digits (l : List Char) (hne : l ≠ [])
    (hdig : ∀ c ∈ l, 48 ≤ c.toNat ∧ c.toNat ≤ 57) :
    atoi l = wrapInt32 (saturateLong (atoiDigits 0 l)) := by
  cases l with
  | nil => exact absurd rfl hne
  | cons c cs =>
    have hc := hdig c (by simp)
    have hsp : isspace c = false := by
      simp only [isspace, Bool.or_eq_false_iff, beq_eq_false_iff_ne, ne_eq,
        Bool.and_eq_false_imp, decide_eq_true_eq, decide_eq_false_iff_not]
      omega
    have h45 : (c.toNat == 45) = false := by simp; omega
    have h43 : (c.toNat == 43) = false := by simp; omega
    simp [atoi, strtol, List.dropWhile_cons, hsp, h45, h43]

theorem takeWhile_digits_comma (l rest : List Char)
    (hdig : ∀ c ∈ l, 48 ≤ c.toNat ∧ c.toNat ≤ 57) :
    (l ++ comma ++ rest).takeWhile (fun c => c != Char.ofNat 44) = l := by
  induction l with
  | nil => simp [comma]
  | cons c cs ih =>
    have hc := hdig c (by simp)
    have hne : c ≠ Char.ofNat 44 := by
      intro e
      rw [e] at hc
      have : (Char.ofNat 44).toNat = 44 := rfl
      omega
    have := ih (fun x hx => hdig x (List.mem_cons_of_mem _ hx))
    simp only [List.cons_append, List.takeWhile_cons]
    rw [List.append_assoc] at this
    simp [hne, this]

/-- C10: `rdtsc` reads the legacy counter `pmccntr_el0` exactly when the description starts
with `iPhone`, contains a comma, and `atoi` of the text between that start and the first comma
is below 8; for a description `iPhone<M>,<rest>` with `M` a decimal numeral that fits in an
`int` this is exactly when `M < 8`; a description that does not start with `iPhone` reads the
regular platform counter; and the value returned is the reading of the counter chosen. -/
theorem rdtsc_legacy_counter :
    (∀ d, rdtscSource d = CounterSource.pmccntr_el0 ↔ legacyCounterCondition d) ∧
    (∀ (M : Nat) (rest : List Char), M ≤ 2147483647 →
      (rdtscSource (iPhone ++ decimal M ++ comma ++ rest) = CounterSource.pmccntr_el0 ↔ M < 8) ∧
      (rdtscSource (iPhone ++ decimal M ++ comma ++ rest) = CounterSource.platformCounter
        ↔ 8 ≤ M)) ∧
    (∀ d, ¬ iPhone <+: d → rdtscSource d = CounterSource.platformCounter) ∧
    (∀ d p q, rdtsc d p q =
      if rdtscSource d = CounterSource.pmccntr_el0 then p else q) := by
  have key : ∀ (M : Nat) (rest : List Char), M ≤ 2147483647 →
      (rdtscSource (iPhone ++ decimal M ++ comma ++ rest) = CounterSource.pmccntr_el0 ↔ M < 8) := by
    intro M rest hM
    obtain ⟨hne, hdig, hval⟩ := decimal_spec M
    rw [rdtscSource_iff_condition]
    unfold legacyCounterCondition
    have hdrop : (iPhone ++ decimal M ++ comma ++ rest).drop 6 = decimal M ++ comma ++ rest := by
      have hlen : iPhone.length = 6 := rfl
      rw [List.append_assoc, List.append_assoc, ← hlen, List.drop_left, List.append_assoc]
    have hsat : saturateLong (M : Int) = M := by
      unfold saturateLong LONG_MAX LONG_MIN
      have h1 : ¬ ((M : Int) > 9223372036854775807) := by omega
      have h2 : ¬ ((M : Int) < -9223372036854775808) := by omega
      simp [h1, h2]
    rw [hdrop, takeWhile_digits_comma _ _ hdig, atoi_digits _ hne hdig, hval, hsat,
      wrapInt32_of_fits _ (by omega) (by omega)]
    constructor
    · intro h
      have := h.2.2
      omega
    · intro h
      refine ⟨by simp [List.append_assoc], by simp [comma], by omega⟩
  refine ⟨rdtscSource_iff_condition, ?_, ?_, ?_⟩
  · intro M rest hM
    refine ⟨key M rest hM, ?_⟩
    have hk := key M rest hM
    cases hsrc : rdtscSource (iPhone ++ decimal M ++ comma ++ rest) with
    | pmccntr_el0 =>
      have := hk.mp hsrc
      simp
      omega
    | platformCounter =>
      have : ¬ M < 8 := fun h => by
        have := hk.mpr h
        rw [hsrc] at this
        cases this
      simp
      omega
  · intro d hp
    cases hsrc : rdtscSource d with
    | pmccntr_el0 => exact absurd ((rdtscSource_iff_condition d).mp hsrc).1 hp
    | platformCounter => rfl
  · intro d p q
    unfold rdtsc
    cases rdtscSource d <;> simp

theorem rdtsc_legacy_counter_witness :
    rdtscSource (iPhone ++ decimal 7 ++ comma ++ ['2']) = CounterSource.pmccntr_el0 ∧
    rdtscSource (iPhone ++ decimal 8 ++ comma ++ ['1']) = CounterSource.platformCounter :=
  ⟨((rdtsc_legacy_counter.2.1 7 ['2'] (by decide)).1).mpr (by decide),
   ((rdtsc_legacy_counter.2.1 8 ['1'] (by decide)).2).mpr (by decide)⟩

end tracktion
